import Mathlib

/- A shallow embedding of the pypass password store, src/pypass/store.py.
   Filesystem paths are modelled as lists of path components relative to the
   store root directory, which by the data model of the specification is an
   absolute normalized path, so that os.path.join of the root with an
   absolute path below it is that path again.  Where the source manipulates
   raw path strings (os.path.normpath, trailing separators, appending the
   .gpg suffix) the embedding processes the same strings character by
   character.  The helper modules pypass.util, pypass.gpg and pypass.git are
   not under src; their operations are modelled from the specification and
   marked as such in their doc comments. -/

namespace PyPassStore

/-- A filesystem path, as components relative to the store root. -/
abbrev Path := List String

/-- Splits a character list at every occurrence of c, as the Python method
    str.split does for a one character separator. -/
def splitCharAux (c : Char) : List Char → List (List Char)
  | [] => [[]]
  | a :: rest =>
    match splitCharAux c rest with
    | [] => [[]]
    | grp :: grps => if a = c then [] :: grp :: grps else (a :: grp) :: grps

/-- Python str.split with a one character separator, on Lean strings. -/
def splitOnChar (c : Char) (s : String) : List String :=
  (splitCharAux c s.data).map String.mk

/-- Python str.join: joins the list with the separator between elements. -/
def joinSep (sep : String) : List String → String
  | [] => ""
  | [a] => a
  | a :: b :: rest => a ++ sep ++ joinSep sep (b :: rest)

/-- Python str.startswith. -/
def strStartsWith (s p : String) : Bool := p.data.isPrefixOf s.data

/-- Python str.endswith. -/
def strEndsWith (s p : String) : Bool := p.data.isSuffixOf s.data

/-- Removes a suffix from a string when present, as the slice path[:-4] does
    for the .gpg suffix after an endswith test. -/
def stripSuffix (s suf : String) : String :=
  if strEndsWith s suf then ⟨s.data.take (s.data.length - suf.data.length)⟩ else s

/-- One step of the component scan inside os.path.normpath (posixpath):
    empty and dot components are dropped, a dotdot component pops the last
    kept component unless nothing can be popped. -/
def normStep (isAbs : Bool) (acc : List String) (comp : String) : List String :=
  if comp = "" ∨ comp = "." then acc
  else if comp ≠ ".." ∨ (isAbs = false ∧ acc = []) ∨ acc.getLast? = some ".." then
    acc ++ [comp]
  else if acc = [] then acc
  else acc.dropLast

/-- os.path.normpath for POSIX paths, as called throughout store.py.  The
    POSIX corner case of exactly two leading slashes is not modelled; no
    claim involves it. -/
def normpath (s : String) : String :=
  if s = "" then "."
  else
    let isAbs := strStartsWith s "/"
    let ncomps := (splitOnChar '/' s).foldl (normStep isAbs) []
    let joined := joinSep "/" ncomps
    let res := if isAbs then "/" ++ joined else joined
    if res = "" then "." else res

/-- The components of a path string: split on the separator, empty and dot
    components dropped, because the operating system resolves them to the
    directory itself when the path is used. -/
def pathComps (s : String) : List String :=
  (splitOnChar '/' s).filter (fun c => decide (c ≠ "" ∧ c ≠ "."))

/-- The filesystem under the store root: file paths with their on-disk bytes,
    plus the set of existing directories.  The root directory, the empty
    component list, always exists. -/
structure FS where
  files : List (Path × String)
  dirs : List Path
deriving DecidableEq

/-- Looks a path up in a file list. -/
def lookupPath : List (Path × String) → Path → Option String
  | [], _ => none
  | e :: l, p => if e.1 = p then some e.2 else lookupPath l p

/-- Removes every entry of a path from a file list. -/
def removeKeyAll : List (Path × String) → Path → List (Path × String)
  | [], _ => []
  | e :: l, p => if e.1 = p then removeKeyAll l p else e :: removeKeyAll l p

/-- Reads the bytes of the file at p, none when no such file exists. -/
def FS.read (fs : FS) (p : Path) : Option String :=
  lookupPath fs.files p

/-- os.path.isfile. -/
def FS.isFile (fs : FS) (p : Path) : Bool := (fs.read p).isSome

/-- os.path.isdir; the store root always exists. -/
def FS.isDir (fs : FS) (p : Path) : Bool := decide (p = []) || decide (p ∈ fs.dirs)

/-- os.path.exists. -/
def FS.pathExists (fs : FS) (p : Path) : Bool := fs.isFile p || fs.isDir p

/-- Writes a file, replacing any previous file at the same path. -/
def FS.write (fs : FS) (p : Path) (data : String) : FS :=
  { fs with files := (p, data) :: removeKeyAll fs.files p }

/-- os.remove. -/
def FS.removeFile (fs : FS) (p : Path) : FS :=
  { fs with files := removeKeyAll fs.files p }

/-- Every directory on the way from the store root down to p, p included. -/
def ancestors (p : Path) : List Path :=
  (List.range (p.length + 1)).map (fun n => p.take n)

/-- Errors raised by the store.  fileNotFound is the FileNotFoundError of the
    code, covering what the specification calls NotFoundError and
    MissingIdentityError; fileExists is FileExistsError, covering
    AlreadyExistsError and PathConflictError; permission is raised by the
    traversal guard; notInit by the initialised guard; encryption stands for
    a failing encryption backend. -/
inductive Err where
  | fileNotFound
  | fileExists
  | permission
  | notInit
  | encryption
deriving DecidableEq

/-- os.makedirs.  Without existOk it fails whenever the target already
    exists, even as a directory; with existOk it fails only when the target
    or a directory on the way exists as a file. -/
def FS.makedirs (fs : FS) (p : Path) (existOk : Bool) : Except Err FS :=
  if fs.isDir p then
    if existOk then .ok fs else .error .fileExists
  else if (ancestors p).any (fun q => fs.isFile q) then .error .fileExists
  else .ok { fs with dirs := (ancestors p).filter (fun q => !fs.isDir q) ++ fs.dirs }

/-- shutil.rmtree with ignore errors: removes the whole subtree rooted at p
    when p is a directory, and silently does nothing otherwise. -/
def FS.rmtree (fs : FS) (p : Path) : FS :=
  if fs.isDir p then
    { files := fs.files.filter (fun e => !p.isPrefixOf e.1),
      dirs := fs.dirs.filter (fun d => !p.isPrefixOf d) }
  else fs

/-- Modelled from the spec: the encryption backend contract of section 6,
    encrypt(plaintext, identities) and decrypt(bytes), together with the
    password generation utility pypass.util._gen_password, none of which are
    under src.  All three are abstract pure functions of their inputs. -/
structure Backend where
  encrypt : List String → String → String
  decrypt : String → String
  genPassword : Nat → Bool → String

/-- The identity list stored in a .gpg-id file, one identity per line. -/
def parseIds (content : String) : List String :=
  (splitOnChar '\n' content).filter (fun l => decide (l ≠ ""))

/-- Walks from the directory given by the reversed component list up to the
    store root, looking for the nearest .gpg-id file. -/
def effAux (fs : FS) : List String → Option (List String)
  | [] => (fs.read [".gpg-id"]).map parseIds
  | c :: rest =>
    match fs.read ((c :: rest).reverse ++ [".gpg-id"]) with
    | some content => some (parseIds content)
    | none => effAux fs rest

/-- Modelled from the spec: effectiveIdentities of section 9, the nearest
    ancestor .gpg-id lookup performed by the gpg helpers (pypass.gpg is not
    under src). -/
def effectiveIds (fs : FS) (dir : Path) : Option (List String) :=
  effAux fs dir.reverse

/-- Modelled from the spec: pypass.gpg._read_key decrypts the blob stored at
    the given path (not under src). -/
def read_key (B : Backend) (fs : FS) (p : Path) : Except Err String :=
  match fs.read p with
  | some blob => .ok (B.decrypt blob)
  | none => .error .fileNotFound

/-- Modelled from the spec: pypass.gpg._write_key encrypts the data against
    the effective identities of the target directory and writes the blob
    (not under src). -/
def write_key (B : Backend) (fs : FS) (p : Path) (data : String) : Except Err FS :=
  match effectiveIds fs p.dropLast with
  | some ids => .ok (fs.write p (B.encrypt ids data))
  | none => .error .encryption

/-- Decrypt and re-encrypt a single file in place. -/
def reencryptOne (B : Backend) (fs : FS) (q : Path) : Except Err FS :=
  match fs.read q with
  | none => .ok fs
  | some blob => write_key B fs q (B.decrypt blob)

/-- Modelled from the spec: pypass.gpg._reencrypt_path decrypts every .gpg
    file under the given directory and encrypts it again against its current
    effective identities (not under src). -/
def reencrypt_path (B : Backend) (fs : FS) (root : Path) : Except Err FS :=
  let targets := (fs.files.map Prod.fst).filter
    (fun q => root.isPrefixOf q && strEndsWith (q.getLastD "") ".gpg")
  targets.foldlM (fun acc q => reencryptOne B acc q) fs

/-- A recorded history operation: a staged addition or removal together with
    its commit message.  Modelled from the spec: the history backend contract
    of section 6 (pypass.git is not under src). -/
inductive GitEvent where
  | add (p : Path) (msg : String)
  | rm (p : Path) (msg : String)
deriving DecidableEq

/-- The store state: the filesystem under the store root, whether a history
    repository is present, and the recorded history events. -/
structure Store where
  fs : FS
  repo : Bool
  history : List GitEvent
deriving DecidableEq

/-- Modelled from the spec: pypass.git._git_add_path stages a path and
    commits; with no repository present it is a silent no-op (not under
    src). -/
def gitAdd (st : Store) (p : Path) (msg : String) : Store :=
  if st.repo then { st with history := st.history ++ [.add p msg] } else st

/-- Modelled from the spec: pypass.git._git_remove_path removes a path from
    the history and commits; with no repository present it is a silent no-op
    (not under src). -/
def gitRm (st : Store) (p : Path) (msg : String) : Store :=
  if st.repo then { st with history := st.history ++ [.rm p msg] } else st

/-- Store.is_init, store.py lines 115 to 119: the store is initialised when a
    .gpg-id file exists at the root. -/
def Store.is_init (st : Store) : Bool := st.fs.isFile [".gpg-id"]

/-- Modelled from the spec: the pypass.util.trap decorator (not under src)
    rejects a path whose normalized form escapes the store root, section 4.1
    of the specification; a missing path is passed through. -/
def trapEscapes (path : Option String) : Bool :=
  match path with
  | none => false
  | some s =>
    decide ((pathComps (normpath s)).headD "" = "..") || strStartsWith (normpath s) "/"

/-- The on-disk file of a key name: normpath(name) with the .gpg suffix
    appended, as components (store.py lines 232 to 234 and the analogous
    lines of set_key and gen_key). -/
def keyFor (n : String) : Path := pathComps (normpath n ++ ".gpg")

/-- Store.get_key, store.py lines 215 to 238.  The initialised guard runs
    first, then the traversal guard, then the body. -/
def Store.get_key (B : Backend) (st : Store) (path : Option String) :
    Except Err (Option String) :=
  if st.is_init = false then .error .notInit
  else if trapEscapes path then .error .permission
  else
    match path with
    | none => .ok none
    | some p =>
      if p = "" then .ok none
      else
        let key := keyFor p
        if st.fs.isFile key then
          match read_key B st.fs key with
          | .ok data => .ok (some data)
          | .error e => .error e
        else .error .fileNotFound

/-- Store.set_key, store.py lines 240 to 270. -/
def Store.set_key (B : Backend) (st : Store) (path : Option String)
    (key_data : String) (force : Bool) : Except Err Store :=
  if st.is_init = false then .error .notInit
  else if trapEscapes path then .error .permission
  else
    match path with
    | none => .ok st
    | some p =>
      if p = "" then .ok st
      else
        let p1 := normpath p
        let key := keyFor p
        let keyDir := key.dropLast
        if st.fs.pathExists key = true ∧ force = false then .error .fileExists
        else
          match st.fs.makedirs keyDir true with
          | .error e => .error e
          | .ok fs1 =>
            match write_key B fs1 key key_data with
            | .error e => .error e
            | .ok fs2 =>
              .ok (gitAdd { st with fs := fs2 } key
                ("Add given password for " ++ p1 ++ " to store."))

/-- Store.gen_key, store.py lines 303 to 351. -/
def Store.gen_key (B : Backend) (st : Store) (path : Option String)
    (length : Nat) (symbols : Bool) (force : Bool) (inplace : Bool) :
    Except Err (Option String × Store) :=
  if st.is_init = false then .error .notInit
  else if trapEscapes path then .error .permission
  else
    match path with
    | none => .ok (none, st)
    | some p =>
      if p = "" then .ok (none, st)
      else
        let p1 := normpath p
        let key := keyFor p
        let keyDir := key.dropLast
        if st.fs.pathExists key = true ∧ force = false ∧ inplace = false then
          .error .fileExists
        else
          match st.fs.makedirs keyDir true with
          | .error e => .error e
          | .ok fs1 =>
            let password := B.genPassword length symbols
            if inplace = false then
              match write_key B fs1 key password with
              | .error e => .error e
              | .ok fs2 =>
                .ok (some password, gitAdd { st with fs := fs2 } key
                  ("Add generated password for " ++ p1 ++ "."))
            else
              match read_key B fs1 key with
              | .error e => .error e
              | .ok key_data =>
                let lines := splitOnChar '\n' key_data
                match write_key B fs1 key (joinSep "\n" (lines.set 0 password)) with
                | .error e => .error e
                | .ok fs2 =>
                  .ok (some password, gitAdd { st with fs := fs2 } key
                    ("Replace generated password for " ++ p1 ++ "."))

/-- Store.init_store, store.py lines 121 to 191.  The isdir and exists checks
    of line 149 resolve the still relative path against the working directory
    of the process; they are modelled with the working directory at the store
    root.  The single string to singleton list coercion of line 157 is left
    to the caller: the identity argument is already a list or none. -/
def Store.init_store (B : Backend) (st : Store) (gpg_ids : Option (List String))
    (path : Option String) : Except Err Store :=
  if trapEscapes path then .error .permission
  else
    let chk : Except Err Path :=
      match path with
      | some p =>
        let d := pathComps (normpath p)
        if st.fs.isDir d = false ∧ st.fs.pathExists d = true then .error .fileExists
        else .ok d
      | none => .ok []
    match chk with
    | .error e => .error e
    | .ok gpgIdDir =>
      let gpgIdPath := gpgIdDir ++ [".gpg-id"]
      let ids := gpg_ids.getD []
      let finish : Store → Except Err Store := fun st1 =>
        match reencrypt_path B st1.fs gpgIdDir with
        | .error e => .error e
        | .ok fs3 =>
          .ok (gitAdd { st1 with fs := fs3 } gpgIdDir
            ("Reencrypt password store using new GPG id " ++ joinSep ", " ids ++ "."))
      if ids = [] then
        if st.fs.isFile gpgIdPath = false then .error .fileNotFound
        else
          let st1 := gitRm { st with fs := st.fs.removeFile gpgIdPath } gpgIdPath
            ("Deinitialize " ++ joinSep "/" gpgIdPath ++ ".")
          finish { st1 with fs := st1.fs.rmtree gpgIdDir }
      else
        match st.fs.makedirs gpgIdDir false with
        | .error e => .error e
        | .ok fs1 =>
          let st1 := gitAdd { st with fs := fs1.write gpgIdPath (joinSep "\n" ids ++ "\n") }
            gpgIdPath ("Set GPG id to " ++ joinSep ", " ids ++ ".")
          finish st1

/-- Modelled from the spec: pypass.util._copy_move (not under src).  When the
    destination is an existing directory the source keeps its base name
    inside it; an existing destination without force is a conflict; a missing
    source file is an error; with move the source is removed.  The final
    destination path is returned. -/
def copyMoveFS (fs : FS) (old new : Path) (force : Bool) (move : Bool) :
    Except Err (FS × Path) :=
  let dest := if fs.isDir new then new ++ [old.getLastD ""] else new
  if fs.pathExists dest = true ∧ force = false then .error .fileExists
  else if fs.isDir old then
    let fsCleared : FS :=
      { files := fs.files.filter (fun e => !dest.isPrefixOf e.1),
        dirs := fs.dirs.filter (fun d => !dest.isPrefixOf d) }
    let copiedFiles := fs.files.filterMap (fun e =>
      if old.isPrefixOf e.1 then some (dest ++ e.1.drop old.length, e.2) else none)
    let copiedDirs := fs.dirs.filterMap (fun d =>
      if old.isPrefixOf d then some (dest ++ d.drop old.length) else none)
    let fs1 : FS :=
      { files := copiedFiles ++ fsCleared.files, dirs := copiedDirs ++ fsCleared.dirs }
    let fs2 := if move then fs1.rmtree old else fs1
    .ok (fs2, dest)
  else
    match fs.read old with
    | none => .error .fileNotFound
    | some blob =>
      let fs1 := fs.write dest blob
      let fs2 := if move then fs1.removeFile old else fs1
      .ok (fs2, dest)

/-- Store._copy_move_path, store.py lines 353 to 400.  The endswith test of
    line 382 runs on the full joined path; with an absolute normalized store
    root the full path ends with the separator exactly when the normalized
    relative path does, which is how it is modelled here. -/
def Store.copy_move_path (B : Backend) (st : Store) (old_path new_path : String)
    (force : Bool) (move : Bool) : Except Err Store :=
  if st.is_init = false then .error .notInit
  else if trapEscapes (some old_path) then .error .permission
  else if trapEscapes (some new_path) then .error .permission
  else
    let op := normpath old_path
    let np := normpath new_path
    let oldComps := pathComps op
    let step : Path × Path :=
      if st.fs.isDir oldComps = false then
        let o := pathComps (op ++ ".gpg")
        if st.fs.isDir (pathComps np) = true ∨ strEndsWith np "/" = true then
          (o, pathComps np)
        else (o, pathComps (np ++ ".gpg"))
      else (oldComps, pathComps np)
    match copyMoveFS st.fs step.1 step.2 force move with
    | .error e => .error e
    | .ok (fs1, dest) =>
      let after : Except Err FS :=
        if fs1.pathExists dest = true then reencrypt_path B fs1 dest else .ok fs1
      match after with
      | .error e => .error e
      | .ok fs2 =>
        if move then
          let fs3 := fs2.rmtree step.1
          let st2 : Store := { st with fs := fs3 }
          let st3 := if fs3.pathExists step.1 = false then gitRm st2 step.1 "" else st2
          .ok (gitAdd st3 dest ("Rename " ++ op ++ " to " ++ np ++ "."))
        else
          .ok (gitAdd { st with fs := fs2 } dest ("Copy " ++ op ++ " to " ++ np ++ "."))

/-- Store.copy_path, store.py lines 403 to 416. -/
def Store.copy_path (B : Backend) (st : Store) (old_path new_path : String)
    (force : Bool) : Except Err Store :=
  st.copy_move_path B old_path new_path force false

/-- Store.move_path, store.py lines 418 to 431. -/
def Store.move_path (B : Backend) (st : Store) (old_path new_path : String)
    (force : Bool) : Except Err Store :=
  st.copy_move_path B old_path new_path force true

/-- The names q has directly below directory p in the given path list. -/
def childNamesOf (ps : List Path) (p : Path) : List String :=
  ps.filterMap (fun q => if q.dropLast = p then q.getLast? else none)

/-- os.listdir of a directory of the store: names of entries directly below
    it, each once. -/
def FS.listNames (fs : FS) (p : Path) : List String :=
  (childNamesOf fs.dirs p ++ childNamesOf (fs.files.map Prod.fst) p).dedup

/-- Store._get_store_name, store.py lines 98 to 113: the path relative to the
    store root without a trailing .gpg suffix. -/
def storeName (p : Path) : String := stripSuffix (joinSep "/" p) ".gpg"

/-- Store.list_dir, store.py lines 433 to 469.  The for loop appending to two
    accumulator lists is rendered as two filtered maps over the same sorted
    entry list, preserving its order and the elif precedence of the
    directory test over the file test. -/
def Store.list_dir (st : Store) (path : String) : Except Err (List String × List String) :=
  if st.is_init = false then .error .notInit
  else if trapEscapes (some path) then .error .permission
  else
    let pd := pathComps (normpath path)
    if st.fs.isDir pd = false then .error .fileNotFound
    else
      let entries := List.insertionSort (fun a b : String => a ≤ b) (st.fs.listNames pd)
      let dirs := (entries.filter (fun e =>
          !strStartsWith e "." && st.fs.isDir (pd ++ [e]))).map
        (fun e => storeName (pd ++ [e]))
      let keys := (entries.filter (fun e =>
          !strStartsWith e "." && !st.fs.isDir (pd ++ [e]) &&
            st.fs.isFile (pd ++ [e]) && strEndsWith e ".gpg")).map
        (fun e => storeName (pd ++ [e]))
      .ok (dirs, keys)

/-- A backend whose decrypt undoes encrypt and whose generated password of
    length n is the letter p repeated n times; used for concrete runs. -/
def idBackend : Backend where
  encrypt := fun _ s => s
  decrypt := fun s => s
  genPassword := fun n _ => ⟨List.replicate n 'p'⟩

/-- A small initialised store: a root .gpg-id only. -/
def st0 : Store :=
  { fs := { files := [([".gpg-id"], "ID\n")], dirs := [[]] },
    repo := true, history := [] }

/-- An initialised store holding one secret x with three content lines. -/
def st1 : Store :=
  { fs :=
      { files := [([".gpg-id"], "ID\n"), (["x.gpg"], "old\nmeta1\nmeta2")],
        dirs := [[]] },
    repo := true, history := [] }

/-- An initialised store with an existing scoped subdirectory sub. -/
def stC2 : Store :=
  { fs := { files := [([".gpg-id"], "Root\n")], dirs := [[], ["sub"]] },
    repo := true, history := [] }

/-- An initialised store with a scoped subdirectory sub holding one secret. -/
def stC3 : Store :=
  { fs :=
      { files := [([".gpg-id"], "Root\n"), (["sub", ".gpg-id"], "A\n"),
          (["sub", "x.gpg"], "blob")],
        dirs := [[], ["sub"]] },
    repo := true, history := [] }

/-- An initialised store holding one secret a at the root. -/
def stC7 : Store :=
  { fs := { files := [([".gpg-id"], "Root\n"), (["a.gpg"], "blob")], dirs := [[]] },
    repo := true, history := [] }

/-- An initialised store with children for listing: directories and files,
    hidden entries and a file without the .gpg suffix. -/
def stC8 : Store :=
  { fs :=
      { files := [([".gpg-id"], "ID\n"), (["b.gpg"], "B"), (["a.gpg"], "A"),
          (["c.gpg"], "C"), (["notes.txt"], "N"), ([".hidden.gpg"], "H")],
        dirs := [[], ["zdir"], ["adir"], [".git"]] },
    repo := true, history := [] }

/-- An initialised store where the path f exists as a file, for the scope
    error cases. -/
def stC9 : Store :=
  { fs := { files := [([".gpg-id"], "Root\n"), (["f"], "plain")], dirs := [[]] },
    repo := true, history := [] }

/- Helper lemmas about the filesystem model. -/

theorem lookupPath_removeKeyAll (l : List (Path × String)) (p q : Path) (h : q ≠ p) :
    lookupPath (removeKeyAll l p) q = lookupPath l q := by
  induction l with
  | nil => rfl
  | cons e l ih =>
    by_cases hep : e.1 = p
    · have hpq : p ≠ q := fun hc => h hc.symm
      simp [removeKeyAll, lookupPath, hep, hpq, ih]
    · simp [removeKeyAll, lookupPath, hep, ih]

theorem read_write (fs : FS) (p : Path) (d : String) (q : Path) :
    (fs.write p d).read q = if q = p then some d else fs.read q := by
  unfold FS.read FS.write
  by_cases hq : q = p
  · subst hq
    simp [lookupPath]
  · have hpq : p ≠ q := fun hc => hq hc.symm
    simp [lookupPath, hpq, hq, lookupPath_removeKeyAll _ _ _ hq]

theorem isFile_write (fs : FS) (p : Path) (d : String) (q : Path) :
    (fs.write p d).isFile q = if q = p then true else fs.isFile q := by
  unfold FS.isFile
  rw [read_write]
  by_cases hq : q = p <;> simp [hq]

theorem read_congr {fs1 fs2 : FS} (h : fs1.files = fs2.files) (q : Path) :
    fs1.read q = fs2.read q := by
  unfold FS.read; rw [h]

theorem isFile_congr {fs1 fs2 : FS} (h : fs1.files = fs2.files) (q : Path) :
    fs1.isFile q = fs2.isFile q := by
  unfold FS.isFile; rw [read_congr h]

theorem makedirs_ok (fs : FS) (p : Path)
    (h : ∀ q ∈ ancestors p, fs.isFile q = false) :
    ∃ fs1, fs.makedirs p true = .ok fs1 ∧ fs1.files = fs.files := by
  unfold FS.makedirs
  by_cases hd : fs.isDir p = true
  · exact ⟨fs, by simp [hd], rfl⟩
  · have hany : (ancestors p).any (fun q => fs.isFile q) = false := by
      rw [Bool.eq_false_iff]
      intro hc
      obtain ⟨q, hq, hfq⟩ := List.any_eq_true.mp hc
      rw [h q hq] at hfq
      exact Bool.false_ne_true hfq
    refine ⟨{ fs with dirs := (ancestors p).filter (fun q => !fs.isDir q) ++ fs.dirs },
      ?_, rfl⟩
    simp [hd, hany]

theorem gitAdd_fs (st : Store) (p : Path) (m : String) : (gitAdd st p m).fs = st.fs := by
  unfold gitAdd; split <;> rfl

theorem gitRm_fs (st : Store) (p : Path) (m : String) : (gitRm st p m).fs = st.fs := by
  unfold gitRm; split <;> rfl

theorem effAux_congr {fs1 fs2 : FS} (h : fs1.files = fs2.files) (rev : List String) :
    effAux fs1 rev = effAux fs2 rev := by
  induction rev with
  | nil => unfold effAux; rw [read_congr h]
  | cons c rest ih => unfold effAux; rw [read_congr h, ih]

theorem effAux_isSome {fs : FS} (hinit : fs.isFile [".gpg-id"] = true)
    (rev : List String) : (effAux fs rev).isSome = true := by
  induction rev with
  | nil =>
    unfold effAux
    unfold FS.isFile at hinit
    simp [Option.isSome_map]
    exact hinit
  | cons c rest ih =>
    unfold effAux
    cases h : fs.read ((c :: rest).reverse ++ [".gpg-id"]) with
    | none => simpa [h] using ih
    | some content => simp [h]

theorem write_key_ok (B : Backend) {fs : FS} (p : Path) (d : String)
    (hinit : fs.isFile [".gpg-id"] = true) :
    ∃ ids, write_key B fs p d = .ok (fs.write p (B.encrypt ids d)) := by
  unfold write_key effectiveIds
  have hs := effAux_isSome hinit p.dropLast.reverse
  obtain ⟨ids, hids⟩ := Option.isSome_iff_exists.mp hs
  exact ⟨ids, by rw [hids]⟩

theorem isFile_gpgid_write {fs : FS} (p : Path) (d : String)
    (hinit : fs.isFile [".gpg-id"] = true) :
    (fs.write p d).isFile [".gpg-id"] = true := by
  rw [isFile_write]
  by_cases hq : ([".gpg-id"] : Path) = p <;> simp [hq, hinit]

theorem mem_childNamesOf {ps : List Path} {p : Path} {e : String} :
    e ∈ childNamesOf ps p ↔ p ++ [e] ∈ ps := by
  unfold childNamesOf
  rw [List.mem_filterMap]
  constructor
  · rintro ⟨q, hq, hfq⟩
    by_cases hd : q.dropLast = p
    · rw [if_pos hd] at hfq
      have hne : q ≠ [] := by
        intro he
        rw [he] at hfq
        exact Option.noConfusion hfq
      have hlast := List.getLast?_eq_getLast q hne
      rw [hlast] at hfq
      have he : q.getLast hne = e := Option.some.inj hfq
      have hrec := List.dropLast_append_getLast hne
      rw [hd, he] at hrec
      rwa [hrec]
    · rw [if_neg hd] at hfq
      exact absurd hfq (Option.noConfusion ·)
  · intro hmem
    refine ⟨p ++ [e], hmem, ?_⟩
    rw [if_pos List.dropLast_concat, List.getLast?_concat]

theorem lookupPath_isSome_iff (l : List (Path × String)) (q : Path) :
    (lookupPath l q).isSome = true ↔ q ∈ l.map Prod.fst := by
  induction l with
  | nil => simp [lookupPath]
  | cons e l ih =>
    by_cases hq : e.1 = q
    · simp [lookupPath, hq]
    · have hq2 : q ≠ e.1 := fun hc => hq hc.symm
      simp [lookupPath, hq, hq2, ih]

theorem isFile_iff_mem {fs : FS} {q : Path} :
    fs.isFile q = true ↔ q ∈ fs.files.map Prod.fst := by
  unfold FS.isFile FS.read
  exact lookupPath_isSome_iff fs.files q

/- Core lemma shared by the roundtrip and conflict claims: a successful set
   writes the encrypted content and a following get decrypts it back. -/

theorem set_key_roundtrip_aux (B : Backend) (st : Store) (n c : String) (force : Bool)
    (hinv : ∀ ids s, B.decrypt (B.encrypt ids s) = s)
    (hinit : st.is_init = true) (hn : n ≠ "")
    (htrap : trapEscapes (some n) = false)
    (habs : st.fs.pathExists (keyFor n) = false ∨ force = true)
    (hanc : ∀ q ∈ ancestors (keyFor n).dropLast, st.fs.isFile q = false) :
    ∃ st', st.set_key B (some n) c force = .ok st' ∧
      st'.get_key B (some n) = .ok (some c) := by
  have hfinit : st.fs.isFile [".gpg-id"] = true := hinit
  have hcond : ¬ (st.fs.pathExists (keyFor n) = true ∧ force = false) := by
    rcases habs with h1 | h2
    · rintro ⟨hc, -⟩
      rw [h1] at hc
      exact Bool.false_ne_true hc
    · rintro ⟨-, hc⟩
      rw [h2] at hc
      exact Bool.noConfusion hc
  obtain ⟨fs1, hmk, hfiles⟩ := makedirs_ok st.fs (keyFor n).dropLast hanc
  have hfinit1 : fs1.isFile [".gpg-id"] = true := by
    rw [isFile_congr hfiles]
    exact hfinit
  obtain ⟨ids, hwk⟩ := write_key_ok B (keyFor n) c hfinit1
  refine ⟨gitAdd { st with fs := fs1.write (keyFor n) (B.encrypt ids c) } (keyFor n)
    ("Add given password for " ++ normpath n ++ " to store."), ?_, ?_⟩
  · simp only [Store.set_key, hinit, htrap, Bool.true_eq_false, if_false,
      Bool.false_eq_true, hn, ite_false, hcond, hmk, hwk]
  · set st' := gitAdd { st with fs := fs1.write (keyFor n) (B.encrypt ids c) } (keyFor n)
      ("Add given password for " ++ normpath n ++ " to store.") with hst'
    have hfs' : st'.fs = fs1.write (keyFor n) (B.encrypt ids c) := gitAdd_fs _ _ _
    have hinit' : st'.is_init = true := by
      unfold Store.is_init
      rw [hfs']
      exact isFile_gpgid_write _ _ hfinit1
    have hread : st'.fs.read (keyFor n) = some (B.encrypt ids c) := by
      rw [hfs', read_write]
      simp
    have hfile : st'.fs.isFile (keyFor n) = true := by
      unfold FS.isFile
      rw [hread]
      rfl
    simp [Store.get_key, hinit', htrap, hn, hfile, read_key, hread, hinv]

/- The claim theorems. -/

/-- C1: on an initialised store, setting a name that is absent, or setting
    with force, then getting the same name returns exactly the stored
    content, provided the decrypt of the backend undoes its encrypt. -/
theorem set_then_get_roundtrip (B : Backend) (st : Store) (n c : String) (force : Bool)
    (hinv : ∀ ids s, B.decrypt (B.encrypt ids s) = s)
    (hinit : st.is_init = true) (hn : n ≠ "")
    (htrap : trapEscapes (some n) = false)
    (habs : st.fs.pathExists (keyFor n) = false ∨ force = true)
    (hanc : ∀ q ∈ ancestors (keyFor n).dropLast, st.fs.isFile q = false) :
    ∃ st', st.set_key B (some n) c force = .ok st' ∧
      st'.get_key B (some n) = .ok (some c) :=
  set_key_roundtrip_aux B st n c force hinv hinit hn htrap habs hanc

/-- C1 witness: the roundtrip on a concrete store for the name x and the
    content data. -/
theorem set_then_get_roundtrip_witness :
    ∃ st', st0.set_key idBackend (some "x") "data" false = .ok st' ∧
      st'.get_key idBackend (some "x") = .ok (some "data") :=
  set_then_get_roundtrip idBackend st0 "x" "data" false (fun _ _ => rfl)
    (by decide) (by decide) (by decide) (Or.inl (by decide)) (by decide)

/-- C5: on an initialised store holding a secret at n, set without force
    fails with FileExistsError, while set with force succeeds and a
    following get returns the new content. -/
theorem set_key_conflict_semantics (B : Backend) (st : Store) (n c2 : String)
    (hinv : ∀ ids s, B.decrypt (B.encrypt ids s) = s)
    (hinit : st.is_init = true) (hn : n ≠ "")
    (htrap : trapEscapes (some n) = false)
    (hpres : st.fs.isFile (keyFor n) = true)
    (hanc : ∀ q ∈ ancestors (keyFor n).dropLast, st.fs.isFile q = false) :
    st.set_key B (some n) c2 false = .error .fileExists ∧
    ∃ st', st.set_key B (some n) c2 true = .ok st' ∧
      st'.get_key B (some n) = .ok (some c2) := by
  constructor
  · have hex : st.fs.pathExists (keyFor n) = true := by
      unfold FS.pathExists
      rw [hpres]
      rfl
    simp [Store.set_key, hinit, htrap, hn, hex]
  · exact set_key_roundtrip_aux B st n c2 true hinv hinit hn htrap (Or.inr rfl) hanc

/-- C5 witness: the conflict and the forced overwrite on a concrete store
    already holding the secret x. -/
theorem set_key_conflict_semantics_witness :
    st1.set_key idBackend (some "x") "data2" false = .error .fileExists ∧
    ∃ st', st1.set_key idBackend (some "x") "data2" true = .ok st' ∧
      st'.get_key idBackend (some "x") = .ok (some "data2") :=
  set_key_conflict_semantics idBackend st1 "x" "data2" (fun _ _ => rfl)
    (by decide) (by decide) (by decide) (by decide) (by decide)

/-- C10: calling set or generate with a missing or empty name returns
    immediately on an initialised store, with the store, its files and its
    history unchanged, and generate returns no password. -/
theorem empty_name_is_noop (B : Backend) (st : Store) (d : String)
    (length : Nat) (symbols force inplace : Bool) (hinit : st.is_init = true) :
    st.set_key B none d force = .ok st ∧
    st.set_key B (some "") d force = .ok st ∧
    st.gen_key B none length symbols force inplace = .ok (none, st) ∧
    st.gen_key B (some "") length symbols force inplace = .ok (none, st) := by
  have ht0 : trapEscapes none = false := rfl
  have ht1 : trapEscapes (some "") = false := by decide
  refine ⟨?_, ?_, ?_, ?_⟩ <;>
    simp [Store.set_key, Store.gen_key, hinit, ht0, ht1]

/-- C10 witness: the no-op cases on a concrete initialised store. -/
theorem empty_name_is_noop_witness :
    st0.set_key idBackend none "d" false = .ok st0 ∧
    st0.set_key idBackend (some "") "d" false = .ok st0 ∧
    st0.gen_key idBackend none 5 true false false = .ok (none, st0) ∧
    st0.gen_key idBackend (some "") 5 true false false = .ok (none, st0) :=
  empty_name_is_noop idBackend st0 "d" 5 true false false (by decide)

/-- C6: get returns the decrypted content of a present secret, fails with
    FileNotFoundError on an absent one, and returns none without error for a
    missing or empty name. -/
theorem get_key_cases (B : Backend) (st : Store) (n : String) (blob : String)
    (hinit : st.is_init = true) (htrap : trapEscapes (some n) = false)
    (hn : n ≠ "") :
    (st.get_key B none = .ok none) ∧
    (st.get_key B (some "") = .ok none) ∧
    (st.fs.read (keyFor n) = some blob →
      st.get_key B (some n) = .ok (some (B.decrypt blob))) ∧
    (st.fs.isFile (keyFor n) = false →
      st.get_key B (some n) = .error .fileNotFound) := by
  have ht0 : trapEscapes none = false := rfl
  have ht1 : trapEscapes (some "") = false := by decide
  refine ⟨?_, ?_, ?_, ?_⟩
  · simp [Store.get_key, hinit, ht0]
  · simp [Store.get_key, hinit, ht1]
  · intro hblob
    have hfile : st.fs.isFile (keyFor n) = true := by
      unfold FS.isFile
      rw [hblob]
      rfl
    simp [Store.get_key, hinit, htrap, hn, hfile, read_key, hblob]
  · intro habs
    simp [Store.get_key, hinit, htrap, hn, habs]

/-- C6 witness: the present, absent, missing and empty name cases on a
    concrete store holding the secret x. -/
theorem get_key_cases_witness :
    (st1.get_key idBackend none = .ok none) ∧
    (st1.get_key idBackend (some "") = .ok none) ∧
    (st1.fs.read (keyFor "x") = some "old\nmeta1\nmeta2" →
      st1.get_key idBackend (some "x") = .ok (some (idBackend.decrypt "old\nmeta1\nmeta2"))) ∧
    (st1.fs.isFile (keyFor "x") = false →
      st1.get_key idBackend (some "x") = .error .fileNotFound) :=
  get_key_cases idBackend st1 "x" "old\nmeta1\nmeta2" (by decide) (by decide) (by decide)

theorem set_zero_drop_one (l : List String) (a : String) :
    (l.set 0 a).drop 1 = l.drop 1 := by
  cases l <;> rfl

/-- C4: generating in place over an existing secret succeeds, returns the
    freshly generated password without reading it back, and rewrites the
    secret so that its decrypted content is the old line list with only line
    zero replaced by that password, the remaining lines unchanged. -/
theorem gen_key_inplace_replaces_first_line (B : Backend) (st : Store) (n : String)
    (length : Nat) (symbols : Bool) (blob : String)
    (hinv : ∀ ids s, B.decrypt (B.encrypt ids s) = s)
    (hinit : st.is_init = true) (hn : n ≠ "")
    (htrap : trapEscapes (some n) = false)
    (hblob : st.fs.read (keyFor n) = some blob)
    (hanc : ∀ q ∈ ancestors (keyFor n).dropLast, st.fs.isFile q = false) :
    ∃ st', st.gen_key B (some n) length symbols false true =
        .ok (some (B.genPassword length symbols), st') ∧
      st'.get_key B (some n) = .ok (some (joinSep "\n"
        ((splitOnChar '\n' (B.decrypt blob)).set 0 (B.genPassword length symbols)))) ∧
      ((splitOnChar '\n' (B.decrypt blob)).set 0 (B.genPassword length symbols)).drop 1 =
        (splitOnChar '\n' (B.decrypt blob)).drop 1 := by
  have hfinit : st.fs.isFile [".gpg-id"] = true := hinit
  obtain ⟨fs1, hmk, hfiles⟩ := makedirs_ok st.fs (keyFor n).dropLast hanc
  have hfinit1 : fs1.isFile [".gpg-id"] = true := by
    rw [isFile_congr hfiles]
    exact hfinit
  have hrk : read_key B fs1 (keyFor n) = .ok (B.decrypt blob) := by
    unfold read_key
    rw [read_congr hfiles, hblob]
  obtain ⟨ids, hwk⟩ := write_key_ok B (keyFor n)
    (joinSep "\n" ((splitOnChar '\n' (B.decrypt blob)).set 0 (B.genPassword length symbols)))
    hfinit1
  refine ⟨gitAdd { st with fs := fs1.write (keyFor n) (B.encrypt ids (joinSep "\n"
      ((splitOnChar '\n' (B.decrypt blob)).set 0 (B.genPassword length symbols)))) }
    (keyFor n) ("Replace generated password for " ++ normpath n ++ "."), ?_, ?_, ?_⟩
  · simp only [Store.gen_key, hinit, htrap, Bool.true_eq_false, if_false,
      Bool.false_eq_true, hn, ite_false, and_false, false_and, hmk, hrk, hwk]
  · set st' := gitAdd { st with fs := fs1.write (keyFor n) (B.encrypt ids (joinSep "\n"
      ((splitOnChar '\n' (B.decrypt blob)).set 0 (B.genPassword length symbols)))) }
      (keyFor n) ("Replace generated password for " ++ normpath n ++ ".") with hst'
    have hfs' : st'.fs = fs1.write (keyFor n) (B.encrypt ids (joinSep "\n"
        ((splitOnChar '\n' (B.decrypt blob)).set 0 (B.genPassword length symbols)))) :=
      gitAdd_fs _ _ _
    have hinit' : st'.is_init = true := by
      unfold Store.is_init
      rw [hfs']
      exact isFile_gpgid_write _ _ hfinit1
    have hread : st'.fs.read (keyFor n) = some (B.encrypt ids (joinSep "\n"
        ((splitOnChar '\n' (B.decrypt blob)).set 0 (B.genPassword length symbols)))) := by
      rw [hfs', read_write]
      simp
    have hfile : st'.fs.isFile (keyFor n) = true := by
      unfold FS.isFile
      rw [hread]
      rfl
    simp [Store.get_key, hinit', htrap, hn, hfile, read_key, hread, hinv]
  · exact set_zero_drop_one _ _

/-- C4 witness: generating a ten character password in place over the secret
    x with content old, meta1, meta2 keeps the two metadata lines. -/
theorem gen_key_inplace_replaces_first_line_witness :
    ∃ st', st1.gen_key idBackend (some "x") 10 true false true =
        .ok (some (idBackend.genPassword 10 true), st') ∧
      st'.get_key idBackend (some "x") = .ok (some (joinSep "\n"
        ((splitOnChar '\n' (idBackend.decrypt "old\nmeta1\nmeta2")).set 0
          (idBackend.genPassword 10 true)))) ∧
      ((splitOnChar '\n' (idBackend.decrypt "old\nmeta1\nmeta2")).set 0
          (idBackend.genPassword 10 true)).drop 1 =
        (splitOnChar '\n' (idBackend.decrypt "old\nmeta1\nmeta2")).drop 1 :=
  gen_key_inplace_replaces_first_line idBackend st1 "x" 10 true "old\nmeta1\nmeta2"
    (fun _ _ => rfl) (by decide) (by decide) (by decide) (by decide) (by decide)

/-- C2: refuted by running the code.  The claim says initialising a scope at
    an existing directory succeeds, creating directories only if absent; the
    model of init_store, whose os.makedirs call has no exist_ok flag, fails
    with FileExistsError on a store where the directory sub already exists,
    before writing the identities. -/
theorem init_store_existing_dir_fails :
    stC2.init_store idBackend (some ["A"]) (some "sub") = .error .fileExists := by
  rfl

/-- C3: refuted by running the code.  After removing the .gpg-id of the
    scoped directory sub, the shutil.rmtree call deletes the whole subtree,
    so the secret sub/x that existed before the call is gone afterwards,
    while the claim says every secret below the directory survives. -/
theorem init_store_empty_ids_removes_secrets :
    (stC3.init_store idBackend (some []) (some "sub")).toOption.map
      (fun st => st.fs.isFile ["sub", "x.gpg"]) = some false := by
  rfl

/-- C7: refuted by running the code.  Copying the secret a to the
    destination b followed by a path separator should, per the claim and the
    docstring, place the secret inside the directory b; because normpath
    strips the trailing separator before the endswith test, the code instead
    appends the .gpg suffix and creates the secret b. -/
theorem copy_trailing_separator_appends_gpg :
    (stC7.copy_path idBackend "a" "b/" false).toOption.map
      (fun st => (st.fs.isFile ["b.gpg"], st.fs.isFile ["b", "a.gpg"])) =
      some (true, false) := by
  rfl

/-- C9: creating a scope at a path that exists in the store as a
    non-directory fails with FileExistsError, and deleting a scope at a
    directory or absent path without a .gpg-id file fails with
    FileNotFoundError; in the model both errors are returned before any
    state is produced, so no filesystem mutation happens. -/
theorem init_store_error_cases (B : Backend) (st : Store) (p : String)
    (ids : List String) (_hne : ids ≠ [])
    (htrap : trapEscapes (some p) = false) :
    (st.fs.pathExists (pathComps (normpath p)) = true →
      st.fs.isDir (pathComps (normpath p)) = false →
      st.init_store B (some ids) (some p) = .error .fileExists) ∧
    ((st.fs.isDir (pathComps (normpath p)) = true ∨
        st.fs.pathExists (pathComps (normpath p)) = false) →
      st.fs.isFile (pathComps (normpath p) ++ [".gpg-id"]) = false →
      st.init_store B (some []) (some p) = .error .fileNotFound) := by
  constructor
  · intro hex hdir
    simp [Store.init_store, htrap, hex, hdir]
  · intro hcase hgpg
    rcases hcase with hdir | habs
    · simp [Store.init_store, htrap, hdir, hgpg]
    · simp [Store.init_store, htrap, habs, hgpg]

/-- C9 witness: both error cases on a concrete store where f exists as a
    plain file and g does not exist. -/
theorem init_store_error_cases_witness :
    stC9.init_store idBackend (some ["A"]) (some "f") = .error .fileExists ∧
    stC9.init_store idBackend (some []) (some "g") = .error .fileNotFound :=
  ⟨(init_store_error_cases idBackend stC9 "f" ["A"] (by decide) (by decide)).1
      (by decide) (by decide),
    (init_store_error_cases idBackend stC9 "g" ["A"] (by decide) (by decide)).2
      (Or.inr (by decide)) (by decide)⟩

theorem isDir_append_mem {fs : FS} {pd : Path} {e : String} :
    fs.isDir (pd ++ [e]) = true ↔ pd ++ [e] ∈ fs.dirs := by
  unfold FS.isDir
  simp

theorem mem_listNames {fs : FS} {pd : Path} {e : String} :
    e ∈ fs.listNames pd ↔
      (pd ++ [e] ∈ fs.dirs ∨ pd ++ [e] ∈ fs.files.map Prod.fst) := by
  unfold FS.listNames
  rw [List.mem_dedup, List.mem_append, mem_childNamesOf, mem_childNamesOf]

/-- C8: list_dir fails with FileNotFoundError when the path is not a
    directory; otherwise it returns the immediate subdirectory names and the
    secret names, each list coming from a lexicographically sorted,
    duplicate-free list of directory entries that excludes hidden entries
    and, for secrets, entries that are not files with the .gpg suffix. -/
theorem list_dir_sorted_characterization (st : Store) (path : String) (pd : Path)
    (hinit : st.is_init = true) (htrap : trapEscapes (some path) = false)
    (hpd : pd = pathComps (normpath path)) :
    (st.fs.isDir pd = false → st.list_dir path = .error .fileNotFound) ∧
    (st.fs.isDir pd = true → ∃ ds ks,
      st.list_dir path = .ok (ds, ks) ∧
      (∃ es : List String, es.Sorted (fun a b => a ≤ b) ∧ es.Nodup ∧
        (∀ e, e ∈ es ↔ (strStartsWith e "." = false ∧
          st.fs.isDir (pd ++ [e]) = true)) ∧
        ds = es.map (fun e => storeName (pd ++ [e]))) ∧
      (∃ es : List String, es.Sorted (fun a b => a ≤ b) ∧ es.Nodup ∧
        (∀ e, e ∈ es ↔ (strStartsWith e "." = false ∧
          st.fs.isDir (pd ++ [e]) = false ∧
          st.fs.isFile (pd ++ [e]) = true ∧ strEndsWith e ".gpg" = true)) ∧
        ks = es.map (fun e => storeName (pd ++ [e])))) := by
  subst hpd
  have hnd : (st.fs.listNames (pathComps (normpath path))).Nodup := by
    unfold FS.listNames
    exact List.nodup_dedup _
  constructor
  · intro hdir
    simp [Store.list_dir, hinit, htrap, hdir]
  · intro hdir
    refine ⟨((List.insertionSort (fun a b : String => a ≤ b)
        (st.fs.listNames (pathComps (normpath path)))).filter
        (fun e => !strStartsWith e "." &&
          st.fs.isDir (pathComps (normpath path) ++ [e]))).map
        (fun e => storeName (pathComps (normpath path) ++ [e])),
      ((List.insertionSort (fun a b : String => a ≤ b)
        (st.fs.listNames (pathComps (normpath path)))).filter
        (fun e => !strStartsWith e "." &&
          !st.fs.isDir (pathComps (normpath path) ++ [e]) &&
          st.fs.isFile (pathComps (normpath path) ++ [e]) &&
          strEndsWith e ".gpg")).map
        (fun e => storeName (pathComps (normpath path) ++ [e])),
      ?_, ?_, ?_⟩
    · simp only [Store.list_dir, hinit, htrap, Bool.true_eq_false, if_false,
        Bool.false_eq_true, hdir, ite_false]
    · refine ⟨_, ?_, ?_, ?_, rfl⟩
      · exact List.Pairwise.filter _ (List.sorted_insertionSort _ _)
      · exact ((List.perm_insertionSort _ _).nodup_iff.mpr hnd).filter _
      · intro e
        rw [List.mem_filter]
        constructor
        · rintro ⟨-, hcond⟩
          rw [Bool.and_eq_true, Bool.not_eq_true'] at hcond
          exact ⟨hcond.1, hcond.2⟩
        · rintro ⟨h1, h2⟩
          refine ⟨?_, ?_⟩
          · rw [(List.perm_insertionSort _ _).mem_iff, mem_listNames]
            exact Or.inl (isDir_append_mem.mp h2)
          · rw [Bool.and_eq_true, Bool.not_eq_true']
            exact ⟨h1, h2⟩
    · refine ⟨_, ?_, ?_, ?_, rfl⟩
      · exact List.Pairwise.filter _ (List.sorted_insertionSort _ _)
      · exact ((List.perm_insertionSort _ _).nodup_iff.mpr hnd).filter _
      · intro e
        rw [List.mem_filter]
        constructor
        · rintro ⟨-, hcond⟩
          rw [Bool.and_eq_true, Bool.and_eq_true, Bool.and_eq_true,
            Bool.not_eq_true', Bool.not_eq_true'] at hcond
          exact ⟨hcond.1.1.1, hcond.1.1.2, hcond.1.2, hcond.2⟩
        · rintro ⟨h1, h2, h3, h4⟩
          refine ⟨?_, ?_⟩
          · rw [(List.perm_insertionSort _ _).mem_iff, mem_listNames]
            exact Or.inr (isFile_iff_mem.mp h3)
          · rw [Bool.and_eq_true, Bool.and_eq_true, Bool.and_eq_true,
              Bool.not_eq_true', Bool.not_eq_true']
            exact ⟨⟨⟨h1, h2⟩, h3⟩, h4⟩

/-- C8 witness: the characterization applied to a concrete store with
    unsorted secrets a, b, c, hidden entries and a file without the .gpg
    suffix, listed at the store root. -/
theorem list_dir_sorted_characterization_witness :
    (stC8.fs.isDir [] = false → stC8.list_dir "" = .error .fileNotFound) ∧
    (stC8.fs.isDir [] = true → ∃ ds ks,
      stC8.list_dir "" = .ok (ds, ks) ∧
      (∃ es : List String, es.Sorted (fun a b => a ≤ b) ∧ es.Nodup ∧
        (∀ e, e ∈ es ↔ (strStartsWith e "." = false ∧
          stC8.fs.isDir ([] ++ [e]) = true)) ∧
        ds = es.map (fun e => storeName ([] ++ [e]))) ∧
      (∃ es : List String, es.Sorted (fun a b => a ≤ b) ∧ es.Nodup ∧
        (∀ e, e ∈ es ↔ (strStartsWith e "." = false ∧
          stC8.fs.isDir ([] ++ [e]) = false ∧
          stC8.fs.isFile ([] ++ [e]) = true ∧ strEndsWith e ".gpg" = true)) ∧
        ks = es.map (fun e => storeName ([] ++ [e])))) :=
  list_dir_sorted_characterization stC8 "" [] (by decide) (by decide) (by decide)

end PyPassStore
